import Mathlib

/-!
Verification of the exam-PDF extraction pipeline of this repository
(`src/pdf_parser.py`).  The Python functions are shallowly embedded as
executable Lean definitions:

* Python regexes are embedded as deterministic character-list matchers.
  The regexes of this code base only combine character classes that are
  pairwise disjoint from the literals that follow them, so greedy
  maximal-munch matching is equivalent to the backtracking semantics of
  Python `re`; the one place where backtracking is observable
  (the `{3,4}` counted repetition and the optional separator of the
  year/period patterns) is modelled by explicit alternation, trying the
  longer variant first exactly as the greedy engine does.
* Python dicts are embedded as association lists with overwrite-in-place
  insertion (`insertD`), which has exactly the dict lookup semantics.
* Character classes `\s` / `\d` / `str.isdigit` are modelled on the
  character repertoire that actually occurs in this corpus: ASCII
  whitespace plus the ideographic space U+3000, and ASCII plus
  full-width digits.  All concrete inputs in the claims stay inside
  this repertoire.
* PDF geometry (PyMuPDF word and image boxes, Python floats) is
  modelled with exact rationals `ℚ`; every concrete coordinate in the
  spec's scenarios is a small integer, where float and rational
  arithmetic agree.
-/

namespace ExamDb

/-! ## Character classes and small Python string helpers -/

/-- Python `\s` (Unicode mode), restricted to the whitespace characters
occurring in this corpus: space, TAB, LF, VT, FF, CR and the ideographic
space U+3000. -/
def isReSpace (c : Char) : Bool :=
  c.toNat = 32 || c.toNat = 9 || c.toNat = 10 || c.toNat = 11 ||
  c.toNat = 12 || c.toNat = 13 || c.toNat = 0x3000

/-- Python `\d` / `str.isdigit`, restricted to the decimal digits occurring
in this corpus: ASCII `0`-`9` and full-width `０`-`９`. -/
def isReDigit (c : Char) : Bool :=
  (48 ≤ c.toNat && c.toNat ≤ 57) || (0xFF10 ≤ c.toNat && c.toNat ≤ 0xFF19)

/-- Numeric value of a decimal digit accepted by `isReDigit`
(Python `int` accepts full-width digits as well). -/
def digitVal (c : Char) : Nat :=
  if 48 ≤ c.toNat && c.toNat ≤ 57 then c.toNat - 48
  else if 0xFF10 ≤ c.toNat && c.toNat ≤ 0xFF19 then c.toNat - 0xFF10
  else 0

/-- Python `int(...)` on a non-empty digit string. -/
def digitsToNat (ds : List Char) : Nat :=
  ds.foldl (fun a c => 10 * a + digitVal c) 0

/-- Python `str.strip()` on a character list. -/
def pyStripL (s : List Char) : List Char :=
  ((s.dropWhile isReSpace).reverse.dropWhile isReSpace).reverse

/-- Python `str.strip()`. -/
def pyStrip (s : String) : String :=
  (pyStripL s.toList).asString

/-- Python `str.isdigit()`: non-empty and every character a digit. -/
def pyIsDigit (s : String) : Bool :=
  !s.toList.isEmpty && s.toList.all isReDigit

/-- Substring test (Python `pat in s`) for a non-empty pattern. -/
def containsSub (pat : List Char) : List Char → Bool
  | [] => pat.isEmpty
  | c :: rest => pat.isPrefixOf (c :: rest) || containsSub pat rest

/-- `normalize_full_width_alpha` (pdf_parser.py lines 924-936) on one
character: full-width Latin letters are shifted down by 0xFEE0. -/
def normFWChar (c : Char) : Char :=
  if 0xFF21 ≤ c.toNat && c.toNat ≤ 0xFF3A then Char.ofNat (c.toNat - 0xFEE0)
  else if 0xFF41 ≤ c.toNat && c.toNat ≤ 0xFF5A then Char.ofNat (c.toNat - 0xFEE0)
  else c

/-- `normalize_full_width_alpha` (pdf_parser.py lines 924-936). -/
def normalize_full_width_alpha (s : String) : String :=
  (s.toList.map normFWChar).asString

/-! ## Python-dict model: association lists with overwrite-in-place insert -/

/-- `d[k] = v` on a Python dict: overwrite in place, else append. -/
def insertD {κ ν : Type} [DecidableEq κ] : List (κ × ν) → κ → ν → List (κ × ν)
  | [], k, v => [(k, v)]
  | (k', v') :: t, k, v =>
    if k' = k then (k, v) :: t else (k', v') :: insertD t k v

/-- `d.get(k)` on a Python dict. -/
def lookupD {κ ν : Type} [DecidableEq κ] : List (κ × ν) → κ → Option ν
  | [], _ => none
  | (k', v') :: t, k => if k' = k then some v' else lookupD t k

/-- Answer map of `parse_answers_from_pdf_text`: question number to list of
answer tokens. -/
abbrev AMap := List (Nat × List String)

/-- Notes map: question number to note text. -/
abbrev NMap := List (Nat × String)

theorem lookupD_insertD {κ ν : Type} [DecidableEq κ]
    (m : List (κ × ν)) (k k' : κ) (v : ν) :
    lookupD (insertD m k v) k' = if k' = k then some v else lookupD m k' := by
  induction m with
  | nil =>
    by_cases h : k' = k
    · subst h; simp [insertD, lookupD]
    · simp [insertD, lookupD, h, Ne.symm h]
  | cons hd t ih =>
    obtain ⟨k₀, v₀⟩ := hd
    by_cases h₀ : k₀ = k
    · subst h₀
      by_cases h₁ : k' = k₀
      · subst h₁; simp [insertD, lookupD]
      · simp [insertD, lookupD, h₁, Ne.symm h₁]
    · by_cases h₁ : k' = k₀
      · subst h₁
        simp [insertD, lookupD, h₀, Ne.symm h₀]
      · simp [insertD, lookupD, h₀, h₁, Ne.symm h₁, ih]

/-! ## Metadata Extractor: year and period (pdf_parser.py lines 89-104)

`extract_metadata_from_text` fills `year`/`period` by searching three
patterns in order: `(\d{3,4})年[ _]*第?(\d+)次` in the page text, the same
pattern (with the class written `[_ ]`, same set) in the filename, and the
looser `(\d{3,4})[ _-]?([1-4])` in the filename. -/

/-- Character class `[ _]` (= `[_ ]`). -/
def ypSep (c : Char) : Bool := c = ' ' || c = '_'

/-- Continuation of `(\d{3,4})年[ _]*第?(\d+)次` after the year digits `ds`.
`第?` is deterministic: not consuming a present `第` forces `\d+` to fail. -/
def ypCont (ds : List Char) : List Char → Option (Nat × Nat)
  | '年' :: r1 =>
    let r2 := r1.dropWhile ypSep
    let r3 := match r2 with
      | '第' :: t => t
      | _ => r2
    let ps := r3.takeWhile isReDigit
    if ps.isEmpty then none
    else
      match r3.drop ps.length with
      | '次' :: _ => some (digitsToNat ds, digitsToNat ps)
      | _ => none
  | _ => none

/-- Match `(\d{3,4})年[ _]*第?(\d+)次` anchored at the start of `s`.
The greedy counted repetition tries four digits, then three. -/
def matchYPAt (s : List Char) : Option (Nat × Nat) :=
  let run := s.takeWhile isReDigit
  (if 4 ≤ run.length then ypCont (s.take 4) (s.drop 4) else none) <|>
  (if 3 ≤ run.length then ypCont (s.take 3) (s.drop 3) else none)

/-- `re.search` of the year/period pattern: leftmost match position wins. -/
def searchYP : List Char → Option (Nat × Nat)
  | [] => none
  | c :: rest => matchYPAt (c :: rest) <|> searchYP rest

/-- Character class `[ _-]`. -/
def isLooseSep (c : Char) : Bool := c = ' ' || c = '_' || c = '-'

/-- Character class `[1-4]` (ASCII only). -/
def isPeriodDigit (c : Char) : Bool := c = '1' || c = '2' || c = '3' || c = '4'

/-- Continuation `[ _-]?([1-4])` after the year digits `ds` of the loose
pattern; the greedy optional separator is tried consumed first. -/
def looseCont (ds : List Char) (s : List Char) : Option (Nat × Nat) :=
  (match s with
   | c :: d :: _ =>
     if isLooseSep c && isPeriodDigit d then some (digitsToNat ds, digitVal d) else none
   | _ => none) <|>
  (match s with
   | d :: _ => if isPeriodDigit d then some (digitsToNat ds, digitVal d) else none
   | _ => none)

/-- Match `(\d{3,4})[ _-]?([1-4])` anchored at the start of `s`. -/
def matchLooseAt (s : List Char) : Option (Nat × Nat) :=
  let run := s.takeWhile isReDigit
  (if 4 ≤ run.length then looseCont (s.take 4) (s.drop 4) else none) <|>
  (if 3 ≤ run.length then looseCont (s.take 3) (s.drop 3) else none)

/-- `re.search` of the loose year/period pattern. -/
def searchLoose : List Char → Option (Nat × Nat)
  | [] => none
  | c :: rest => matchLooseAt (c :: rest) <|> searchLoose rest

/-- The year/period portion of `extract_metadata_from_text`
(pdf_parser.py lines 89-104): page text first, then the filename with the
same pattern, then the filename with the loose pattern; each stage that
matches sets both fields, otherwise they stay `None`. -/
def extractYearPeriod (pdfText filename : List Char) : Option Nat × Option Nat :=
  match searchYP pdfText with
  | some (y, p) => (some y, some p)
  | none =>
    match searchYP filename with
    | some (y, p) => (some y, some p)
    | none =>
      match searchLoose filename with
      | some (y, p) => (some y, some p)
      | none => (none, none)

/-- C4 counterexample: the year/period pattern is absent from the page text
and the filename contains the substring `111年_第一次`, yet no year/period is
extracted — the period digit of both filename patterns is `\d`/`[1-4]`, which
does not match the Chinese numeral `一`. -/
theorem extractYearPeriod_fullwidth_first_filename_none :
    extractYearPeriod ("某考試名稱".toList) ("題目_111年_第一次.pdf".toList) =
      (none, none) := by
  decide

/-- C4 (amended): with the year/period pattern absent from the page text,
the filename fallback still extracts both fields from digit-shaped names:
the loose pattern `(\d{3,4})[ _-]?([1-4])` yields year 111 and period 1
from the real basename `題目1111生化.pdf`.  The Chinese numeral `一` of
`第一次` is not a decimal digit, so that form alone yields nothing (see the
counterexample theorem above). -/
theorem extractYearPeriod_loose_fallback_from_filename :
    extractYearPeriod ("某考試名稱".toList) ("題目1111生化.pdf".toList) =
      (some 111, some 1) := by
  decide

/-! ## Question/Option Segmenter (pdf_parser.py lines 114-282)

The line scanner of `parse_questions_from_pdf_text` in its `default` mode.
-/

/-- Model of `DEFAULT_QUESTION_START_REGEX_STR = r"^\s*(\d+)\s*.\s*(.*)"`
(pdf_parser.py line 31).  `.` denotes the single literal character
U+002E, the half-width full stop; no full-width variant is accepted by this
pattern.  Returns `(int(group(1)), group(2))`. -/
def questionStartMatch (line : List Char) : Option (Nat × String) :=
  let s1 := line.dropWhile isReSpace
  let ds := s1.takeWhile isReDigit
  if ds.isEmpty then none
  else
    match (s1.drop ds.length).dropWhile isReSpace with
    | '.' :: rest => some (digitsToNat ds, (rest.dropWhile isReSpace).asString)
    | _ => none

/-- Letters accepted by `OPTION_REGEX_STR`: class `[A-ZＡ-Ｚ]`. -/
def isOptionLetter (c : Char) : Bool :=
  (65 ≤ c.toNat && c.toNat ≤ 90) || (0xFF21 ≤ c.toNat && c.toNat ≤ 0xFF3A)

/-- Model of `OPTION_REGEX_STR` (pdf_parser.py lines 33-38):
`^\s*(?:[（(]\s*([A-ZＡ-Ｚ])\s*[）)]|([A-ZＡ-Ｚ])\s*.)\s*(.*)`.
Returns `(the letter group, group(3))`.  In the second alternative the
period is again the literal half-width U+002E only. -/
def optionMatch (line : List Char) : Option (Char × String) :=
  match line.dropWhile isReSpace with
  | [] => none
  | c :: rest =>
    if c = '(' || c = '（' then
      match rest.dropWhile isReSpace with
      | [] => none
      | l :: r2 =>
        if isOptionLetter l then
          match r2.dropWhile isReSpace with
          | b :: r4 =>
            if b = ')' || b = '）' then some (l, (r4.dropWhile isReSpace).asString)
            else none
          | [] => none
        else none
    else if isOptionLetter c then
      match rest.dropWhile isReSpace with
      | '.' :: r2 => some (c, (r2.dropWhile isReSpace).asString)
      | _ => none
    else none

/-- `ParsingState` (pdf_parser.py lines 114-117). -/
inductive ParsingState where
  | expectingQuestion
  | parsingQuestionContent
  | parsingOptionText
deriving DecidableEq, Repr

/-- One question dict produced by the segmenter:
`{"question_number": ..., "content": ..., "options": {...}}` (line 201). -/
structure QuestionRec where
  question_number : Nat
  content : String
  options : List (String × String)
deriving DecidableEq, Repr

/-- The mutable ambient state of the line loop of
`parse_questions_from_pdf_text` (lines 147-151). -/
structure SegState where
  questionsData : List QuestionRec
  currentQuestion : Option QuestionRec
  buffer : List String
  activeOptionLetter : Option String
  state : ParsingState
deriving DecidableEq, Repr

/-- Initial loop state (lines 147-151). -/
def initSegState : SegState :=
  { questionsData := [], currentQuestion := none, buffer := [],
    activeOptionLetter := none, state := .expectingQuestion }

/-- `_commit_buffer` (pdf_parser.py lines 119-134): join the buffered lines
with newlines, strip, and if non-empty store into the content field
(`optionKey = none`) or into the option keyed by `optionKey`.  The source's
"ensure option key exists, then assign" pair of dict writes has the same net
effect as one overwrite-or-append insert. -/
def commitBuffer (buffer : List String) (q : QuestionRec)
    (optionKey : Option String) : QuestionRec :=
  let text := pyStrip (String.intercalate "\n" buffer)
  if text = "" then q
  else
    match optionKey with
    | some k => { q with options := insertD q.options k text }
    | none => { q with content := text }

/-- Finalisation of the question under construction (lines 188-195 and
246-253): commit the active buffer according to the state, then append the
question to the output list if its number is truthy (Python: `0` is falsy). -/
def finalizeCurrent (st : SegState) : List QuestionRec :=
  match st.currentQuestion with
  | none => st.questionsData
  | some q =>
    let q' :=
      match st.state, st.activeOptionLetter with
      | .parsingOptionText, some k => commitBuffer st.buffer q (some k)
      | .parsingQuestionContent, _ => commitBuffer st.buffer q none
      | _, _ => q
    if q'.question_number ≠ 0 then st.questionsData ++ [q'] else st.questionsData

/-- Normalisation of a full-width option letter (lines 219-221). -/
def normalizeOptionLetter (c : Char) : Char :=
  if 0xFF21 ≤ c.toNat && c.toNat ≤ 0xFF3A then Char.ofNat (c.toNat - (0xFF21 - 65))
  else c

/-- One iteration of the line loop of `parse_questions_from_pdf_text`
(pdf_parser.py lines 167-243) in `default` parsing mode.  The question
pattern is tried before the option pattern, exactly as in the source. -/
def processLine (st : SegState) (line : String) : SegState :=
  match questionStartMatch line.toList with
  | some (n, rest) =>
    let outData := finalizeCurrent st
    let initialContent := pyStrip rest
    { questionsData := outData
      currentQuestion := some { question_number := n, content := "", options := [] }
      buffer := if initialContent ≠ "" then [initialContent] else []
      activeOptionLetter := none
      state := .parsingQuestionContent }
  | none =>
    match optionMatch line.toList, st.currentQuestion with
    | some (letterRaw, rest), some q =>
      let q1 :=
        match st.state, st.activeOptionLetter with
        | .parsingQuestionContent, _ => commitBuffer st.buffer q none
        | .parsingOptionText, some k => commitBuffer st.buffer q (some k)
        | _, _ => q
      let key := String.mk [normalizeOptionLetter letterRaw]
      let optionText := pyStrip rest
      let q2 :=
        if (lookupD q1.options key).isNone then
          { q1 with options := insertD q1.options key "" }
        else q1
      { questionsData := st.questionsData
        currentQuestion := some q2
        buffer := if optionText ≠ "" then [optionText] else []
        activeOptionLetter := some key
        state := .parsingOptionText }
    | _, _ =>
      match st.currentQuestion with
      | some _ =>
        let stripped := pyStrip line
        if stripped ≠ "" ∧
            (st.state = .parsingQuestionContent ∨ st.state = .parsingOptionText) then
          { st with buffer := st.buffer ++ [stripped] }
        else st
      | none => st

/-- `parse_questions_from_pdf_text` in `default` mode (pdf_parser.py lines
136-282), taking the result of `pdf_text.splitlines()` as input.  The
trailing continuity/duplicate check (lines 257-280) only emits log warnings
and does not change the returned list. -/
def parse_questions_from_pdf_text (lines : List String) : List QuestionRec :=
  finalizeCurrent (lines.foldl processLine initSegState)

/-! ### Character-class and munching lemmas for the question-marker pattern -/

theorem isReSpace_not_digit {c : Char} (h : isReSpace c = true) :
    isReDigit c = false := by
  simp [isReSpace] at h
  simp [isReDigit]
  omega

theorem isReDigit_not_space {c : Char} (h : isReDigit c = true) :
    isReSpace c = false := by
  simp [isReDigit] at h
  simp [isReSpace]
  omega

theorem dropWhile_append_all {α : Type} (p : α → Bool) (l₁ l₂ : List α)
    (h : ∀ c ∈ l₁, p c = true) :
    (l₁ ++ l₂).dropWhile p = l₂.dropWhile p := by
  induction l₁ with
  | nil => rfl
  | cons a t ih =>
    simp only [List.cons_append, List.dropWhile_cons, h a (List.mem_cons_self a t),
      if_true]
    exact ih fun c hc => h c (List.mem_cons_of_mem a hc)

theorem takeWhile_digit_prefix (ds X : List Char)
    (hds : ∀ c ∈ ds, isReDigit c = true)
    (hX : X.takeWhile isReDigit = []) :
    (ds ++ X).takeWhile isReDigit = ds := by
  induction ds with
  | nil => simpa using hX
  | cons d t ih =>
    simp only [List.cons_append, List.takeWhile_cons, hds d (List.mem_cons_self d t),
      if_true, List.cons.injEq, true_and]
    exact ih fun c hc => hds c (List.mem_cons_of_mem d hc)

/-- The characters right after the digit group of a question-marker line —
spaces and then the period — contribute nothing to `\d+`. -/
theorem takeWhile_digit_ws_dot (ws2 rest : List Char)
    (hws2 : ∀ c ∈ ws2, isReSpace c = true) :
    (ws2 ++ ('.' :: rest)).takeWhile isReDigit = [] := by
  have hdot : isReDigit '.' = false := by decide
  cases ws2 with
  | nil => simp [List.takeWhile_cons, hdot]
  | cons w t =>
    have : isReDigit w = false := isReSpace_not_digit (hws2 w (List.mem_cons_self w t))
    simp [List.takeWhile_cons, this]

/-- Evaluation of the question-marker matcher on a well-formed
half-width-period line. -/
theorem questionStartMatch_eq (ws1 ds ws2 rest : List Char)
    (hws1 : ∀ c ∈ ws1, isReSpace c = true)
    (hds : ds ≠ []) (hdsd : ∀ c ∈ ds, isReDigit c = true)
    (hws2 : ∀ c ∈ ws2, isReSpace c = true) :
    questionStartMatch (ws1 ++ (ds ++ (ws2 ++ ('.' :: rest)))) =
      some (digitsToNat ds, (rest.dropWhile isReSpace).asString) := by
  obtain ⟨d, ds', rfl⟩ : ∃ d ds', ds = d :: ds' := by
    cases ds with
    | nil => exact absurd rfl hds
    | cons d t => exact ⟨d, t, rfl⟩
  unfold questionStartMatch
  rw [dropWhile_append_all _ _ _ hws1]
  have hhead : isReSpace d = false :=
    isReDigit_not_space (hdsd d (List.mem_cons_self d ds'))
  rw [show (d :: ds') ++ (ws2 ++ ('.' :: rest)) = d :: (ds' ++ (ws2 ++ ('.' :: rest)))
        from rfl,
      List.dropWhile_cons, hhead]
  simp only [Bool.false_eq_true, if_false]
  rw [show d :: (ds' ++ (ws2 ++ ('.' :: rest))) = (d :: ds') ++ (ws2 ++ ('.' :: rest))
        from rfl,
      takeWhile_digit_prefix (d :: ds') _ hdsd (takeWhile_digit_ws_dot ws2 rest hws2)]
  simp only [List.isEmpty_cons, List.drop_left, Bool.false_eq_true, if_false]
  rw [dropWhile_append_all _ _ _ hws2]
  have hdot : isReSpace '.' = false := by decide
  simp [List.dropWhile_cons, hdot]

/-- C2 (amended): a line of the form optional-leading-whitespace, digits,
optional whitespace, the half-width ASCII period `.`, rest-of-line always
starts a new question whose `question_number` is exactly the integer value
of the digits, from any scanner state.  (The full-width `．` variant of the
claim fails: see the counterexample theorem.) -/
theorem question_marker_sets_question_number
    (st : SegState) (line : String) (ws1 ds ws2 rest : List Char)
    (hline : line.toList = ws1 ++ (ds ++ (ws2 ++ ('.' :: rest))))
    (hws1 : ∀ c ∈ ws1, isReSpace c = true)
    (hds : ds ≠ []) (hdsd : ∀ c ∈ ds, isReDigit c = true)
    (hws2 : ∀ c ∈ ws2, isReSpace c = true) :
    (processLine st line).currentQuestion =
      some { question_number := digitsToNat ds, content := "", options := [] } := by
  unfold processLine
  rw [hline, questionStartMatch_eq ws1 ds ws2 rest hws1 hds hdsd hws2]

/-- Witness for the C2 theorem at the concrete line `" 12 . hello"`. -/
theorem question_marker_sets_question_number_witness :
    (" 12 . hello" : String).toList =
        [' '] ++ (['1', '2'] ++ ([' '] ++ ('.' :: (" hello" : String).toList))) ∧
      (processLine initSegState " 12 . hello").currentQuestion =
        some { question_number := 12, content := "", options := [] } :=
  ⟨by decide,
    question_marker_sets_question_number initSegState " 12 . hello"
      [' '] ['1', '2'] [' '] (" hello" : String).toList
      (by decide) (by decide) (by decide) (by decide) (by decide)⟩

/-- C2 counterexample: the same marker written with the full-width period
`．` (U+FF0E) is not recognized — the question pattern's period is the
literal half-width U+002E — so this one-line input produces no question at
all, instead of a question numbered 1. -/
theorem fullwidth_period_line_yields_no_question :
    parse_questions_from_pdf_text ["1．下列何者正確"] = [] := by decide

/-- C5 (code-bug evidence): with question 1 active, the option-marker line
`Ａ．選項一` (full-width letter and full-width period, the form the source's
own comment `# A. or Ａ．` documents) is not recognized as an option start:
the option pattern's period is the literal half-width U+002E.  The line is
swallowed into the question content and no option keyed `"A"` is created. -/
theorem fullwidth_period_option_marker_not_recognized :
    parse_questions_from_pdf_text ["1.題幹文字", "Ａ．選項一"] =
      [{ question_number := 1, content := "題幹文字\nＡ．選項一", options := [] }] := by
  decide

/-! ## Answer Grid Reconstructor (pdf_parser.py lines 286-425)

`parse_answers_from_pdf_text` rebuilds the printed answer table from the
positioned words of each page of the answer booklet. -/

/-- One positioned word of `page.get_text("words")`:
`(x0, y0, x1, y1, text, ...)`, coordinates modelled as exact rationals. -/
structure Word where
  x0 : ℚ
  y0 : ℚ
  x1 : ℚ
  y1 : ℚ
  text : String
deriving DecidableEq, Repr

/-- A reconstructed visual line (lines 309-339). -/
structure StructuredLine where
  y0 : ℚ
  words : List Word
  text : String
deriving DecidableEq, Repr

/- Batteries marks the four core rational operations `@[irreducible]`;
the closed evaluation theorems below need them to reduce, so they are made
semireducible for this file. -/
set_option allowUnsafeReducibility true
attribute [local semireducible] Rat.add Rat.sub Rat.mul Rat.inv

/-- Absolute value on `ℚ` by case split (kernel-reducible form of `abs`). -/
def ratAbs (q : ℚ) : ℚ := if q < 0 then -q else q

/-- Stable insertion for the stable sorts below (Python `list.sort` is
stable): a new element goes after every existing element whose key is not
greater. -/
def insertSorted {α : Type} (le : α → α → Bool) (a : α) : List α → List α
  | [] => [a]
  | b :: t => if le b a then b :: insertSorted le a t else a :: b :: t

/-- Stable sort by repeated insertion, processing elements left to right. -/
def sortStable {α : Type} (le : α → α → Bool) (l : List α) : List α :=
  l.foldl (fun acc a => insertSorted le a acc) []

/-- Sort key `(w[1], w[0])` of line 307: top, then left. -/
def wordKeyLe (a b : Word) : Bool :=
  decide (a.y0 < b.y0) || (decide (a.y0 = b.y0) && decide (a.x0 ≤ b.x0))

/-- Sort key `w[0]` of lines 325/334: left edge. -/
def wordXLe (a b : Word) : Bool :=
  decide (a.x0 ≤ b.x0)

/-- Flush the current line buffer (lines 325-330 / 333-339): sort its words
left-to-right, take the leftmost word's y0, and join the texts with single
spaces.  (The buffer is never empty when flushed; the default 0 is inert.) -/
def flushLineBuffer (buf : List Word) : StructuredLine :=
  let sortedBuf := sortStable wordXLe buf
  { y0 := ((sortedBuf.head?).map (·.y0)).getD 0
    words := sortedBuf
    text := String.intercalate " " (sortedBuf.map (·.text)) }

/-- Group the vertically-sorted words into visual lines (lines 309-339):
a word joins the current line when its y0 differs from the line's first
word's y0 by less than `Y_GROUPING_TOLERANCE = 5`. -/
def groupIntoLines (words : List Word) : List StructuredLine :=
  let step := fun (acc : List StructuredLine × List Word) (w : Word) =>
    match acc.2 with
    | [] => (acc.1, [w])
    | first :: _ =>
      if ratAbs (w.y0 - first.y0) < 5 then (acc.1, acc.2 ++ [w])
      else (acc.1 ++ [flushLineBuffer acc.2], [w])
  let fin := words.foldl step ([], [])
  if fin.2.isEmpty then fin.1 else fin.1 ++ [flushLineBuffer fin.2]

/-- The answer-character class `[A-ZＡ-Ｚ#＃]` of lines 355-366. -/
def isAnsClassChar (c : Char) : Bool :=
  isOptionLetter c || c = '#' || c = '＃'

/-- Grid entry `{'text': ..., 'x_mid': ..., 'y0': ...}`
(lines 351 and 371-375). -/
structure GridEntry where
  text : String
  x_mid : ℚ
  y0 : ℚ
deriving DecidableEq, Repr

/-- Row record `{'index': i, 'q_numbers'/'answers': ..., 'y0': ...}`
(lines 353 and 380). -/
structure RowData where
  index : Nat
  entries : List GridEntry
  y0 : ℚ
deriving DecidableEq, Repr

/-- The answer character contributed by one word of a candidate answer row
(lines 357-377): a single class character, or the third character of a
three-character token starting with `答案`. -/
def ansCharOfWord (w : Word) : Option Char :=
  match pyStripL w.text.toList with
  | [c] => if isAnsClassChar c then some c else none
  | [a, b, c] => if a = '答' && b = '案' && isAnsClassChar c then some c else none
  | _ => none

/-- Classification of one structured line (lines 344-380), appending to the
question-number rows or the answer rows. -/
def classifyLine (i : Nat) (line : StructuredLine)
    (qRows ansRows : List RowData) : List RowData × List RowData :=
  let t := line.text.toList
  if (containsSub "題號".toList t || containsSub "序".toList t) && t.any isReDigit then
    let qs := (line.words.filter (fun w => pyIsDigit w.text)).map
      (fun w => ({ text := w.text, x_mid := (w.x0 + w.x1) / 2, y0 := w.y0 } : GridEntry))
    if qs.isEmpty then (qRows, ansRows)
    else (qRows ++ [{ index := i, entries := qs, y0 := line.y0 }], ansRows)
  else if containsSub "答案".toList t && t.any isAnsClassChar then
    let as := line.words.filterMap (fun w =>
      (ansCharOfWord w).map (fun c =>
        ({ text := normalize_full_width_alpha (String.mk [c])
         , x_mid := (w.x0 + w.x1) / 2, y0 := w.y0 } : GridEntry)))
    if as.isEmpty then (qRows, ansRows)
    else (qRows, ansRows ++ [{ index := i, entries := as, y0 := line.y0 }])
  else (qRows, ansRows)

/-- Classify all structured lines of a page, numbering them in order. -/
def classifyLines (lines : List StructuredLine) : List RowData × List RowData :=
  (lines.foldl (fun (acc : Nat × (List RowData × List RowData)) line =>
      (acc.1 + 1, classifyLine acc.1 line acc.2.1 acc.2.2)) (0, ([], []))).2

/-- One step of the nearest-answer scan (lines 406-413): take the entry when
its horizontal distance beats the minimum so far (`none` models the initial
`float('inf')`) and is strictly within 25 units. -/
def bestAnsStep (qx : ℚ) (acc : Option ℚ × Option String) (a : GridEntry) :
    Option ℚ × Option String :=
  let d := ratAbs (qx - a.x_mid)
  let closer := match acc.1 with
    | none => true
    | some m => decide (d < m)
  if closer && decide (d < 25) then (some d, some a.text) else acc

/-- Best answer entry for one question number (lines 403-413): the
horizontally nearest answer entry strictly within 25 units. -/
def bestAnsForQ (ansEntries : List GridEntry) (qx : ℚ) : Option String :=
  (ansEntries.foldl (bestAnsStep qx) (none, none)).2

/-- `q_num_int = int(q_text)` of line 415. -/
def gridKey (q : GridEntry) : Nat := digitsToNat q.text.toList

/-- The per-question assignment loop of one paired row block
(lines 399-420): every question number of the row is written into the
answers map — a singleton `[letter]` when an aligned answer exists,
otherwise the sentinel `["#"]` together with a logged warning (modelled as
the flagged question entry appended to the warning list). -/
def assignStep (ansEntries : List GridEntry) (acc : AMap × List GridEntry)
    (q : GridEntry) : AMap × List GridEntry :=
  match bestAnsForQ ansEntries q.x_mid with
  | some a => (insertD acc.1 (gridKey q) [a], acc.2)
  | none => (insertD acc.1 (gridKey q) ["#"], acc.2 ++ [q])

def assignBlock (st : AMap × List GridEntry) (qEntries ansEntries : List GridEntry) :
    AMap × List GridEntry :=
  qEntries.foldl (assignStep ansEntries) st

/-- The best-candidate scan of lines 385-394: the nearest answer row that
sits strictly below the question row (0 < Δy < 40), comes later in reading
order, and has not been consumed by an earlier question row. -/
def findBestAnsRow (ansRows : List RowData) (processed : List Nat)
    (qRow : RowData) : Option RowData :=
  (ansRows.foldl (fun (b : Option RowData × Option ℚ) aRow =>
      if qRow.index < aRow.index ∧ aRow.index ∉ processed then
        let yd := aRow.y0 - qRow.y0
        if 0 < yd ∧ yd < 40 then
          match b.2 with
          | none => (some aRow, some yd)
          | some m => if yd < m then (some aRow, some yd) else b
        else b
      else b) (none, none)).1

/-- One iteration of the row-pairing loop (lines 384-420): when a partner
answer row exists it is consumed and its entries assigned. -/
def pairStep (ansRows : List RowData) (acc : (AMap × List GridEntry) × List Nat)
    (qRow : RowData) : (AMap × List GridEntry) × List Nat :=
  match findBestAnsRow ansRows acc.2 qRow with
  | some aRow => (assignBlock acc.1 qRow.entries aRow.entries, acc.2 ++ [aRow.index])
  | none => acc

/-- Row pairing (lines 382-420): each question-number row takes the nearest
not-yet-consumed answer row strictly below it (0 < Δy < 40) and assigns its
entries; rows without such a partner assign nothing. -/
def pairRows (st : AMap × List GridEntry) (qRows ansRows : List RowData) :
    AMap × List GridEntry :=
  (qRows.foldl (pairStep ansRows) (st, [])).1

/-- Grid reconstruction for one page (lines 300-420): sort the page's words
by (top, left), group into visual lines, classify, pair and assign. -/
def processAnswerPage (st : AMap × List GridEntry) (pageWords : List Word) :
    AMap × List GridEntry :=
  if pageWords.isEmpty then st
  else
    let structuredLines := groupIntoLines (sortStable wordKeyLe pageWords)
    let rows := classifyLines structuredLines
    pairRows st rows.1 rows.2

/-! ## Erratum Interpreter (pdf_parser.py lines 427-477)

After the grid pass, the source locates the first line beginning with `備註`
in the raw answer-booklet text and runs four `re.finditer` passes over the
block.  The regex scanning itself is abstracted here as the list of matches
each pass produced, in document order (`ErrataMatches`); the claims settled
against this stage concern only how the matches are applied — the overwrite
order and the values written — which lines 429-473 determine and which this
embedding reproduces write by write. -/

/-- One match of the single-question correction pattern
`第(\d+)題[，,、及和與]*(答案|選項)?(更正為|應為)?([A-D#＃])...。` (line 432):
the question number and the captured answer character. -/
structure CorrectionMatch where
  qn : Nat
  ch : Char
deriving DecidableEq, Repr

/-- One match of the single-question full-credit pattern
`第(\d+)題[，,]?(送分|均給分|皆給分|給分)` (line 439). -/
structure CreditMatch where
  qn : Nat
deriving DecidableEq, Repr

/-- One match of the free-text note pattern of line 444 (excluded from the
correction/credit shapes by its negative lookahead). -/
structure NoteMatch where
  qn : Nat
  content : String
deriving DecidableEq, Repr

/-- The action of a multi-question erratum (lines 455-467): either its
third group captured a correction letter, or the keyword was one of the
credit words (each of which triggers the full-credit branch). -/
inductive MultiAction where
  | correct (ch : Char)
  | credit
deriving DecidableEq, Repr

/-- One match of the multi-question pattern of line 450: the list of
parsed question numbers and the action. -/
structure MultiMatch where
  qns : List Nat
  action : MultiAction
deriving DecidableEq, Repr

/-- All matches of the four erratum pattern families inside the first `備註`
block, in document order. -/
structure ErrataMatches where
  corrections : List CorrectionMatch
  credits : List CreditMatch
  freeNotes : List NoteMatch
  multis : List MultiMatch
deriving DecidableEq, Repr

/-- Sequential Python dict writes `m[k] = v`. -/
def applyOps (m : AMap) : List (Nat × List String) → AMap
  | [] => m
  | (k, v) :: ops => applyOps (insertD m k v) ops

/-- The answer value written by one multi-question erratum (lines 458-467):
the corrected letter, normalized to half width, or the full-credit
sentinel. -/
def multiAnsVal : MultiAction → List String
  | .correct ch => [normalize_full_width_alpha (String.mk [ch])]
  | .credit => ["送分"]

/-- The `answers[qn] = ...` writes of the erratum passes, in execution
order (lines 432-437, then 439-442, then 450-472 with the inner
question-number loop flattened).  The free-text pass (lines 444-448) writes
no answers. -/
def errataAnsOps (e : ErrataMatches) : List (Nat × List String) :=
  e.corrections.map
      (fun c => (c.qn, [normalize_full_width_alpha (String.mk [c.ch])]))
    ++ e.credits.map (fun c => (c.qn, ["送分"]))
    ++ e.multis.flatMap (fun m => m.qns.map (fun qn => (qn, multiAnsVal m.action)))

/-- Note text recorded for a correction (lines 436 and 463). -/
def correctionNote (ch : Char) : String :=
  "答案更正為 " ++ normalize_full_width_alpha (String.mk [ch])

/-- Note text of one multi-question erratum (lines 458-467). -/
def multiNote : MultiAction → String
  | .correct ch => correctionNote ch
  | .credit => "送分"

/-- The `notes[qn] = ...` writes of the erratum passes (lines 429-473):
corrections and credits overwrite, the free-text pass fills only absent
keys, the multi-question pass overwrites. -/
def applyErrataNotes (e : ErrataMatches) (notes : NMap) : NMap :=
  let n1 := e.corrections.foldl (fun n c => insertD n c.qn (correctionNote c.ch)) notes
  let n2 := e.credits.foldl (fun n c => insertD n c.qn "送分") n1
  let n3 := e.freeNotes.foldl (fun n c =>
      if (lookupD n c.qn).isNone then insertD n c.qn c.content else n) n2
  e.multis.foldl (fun n m =>
      m.qns.foldl (fun n qn => insertD n qn (multiNote m.action)) n) n3

/-- Result of `parse_answers_from_pdf_text`.  The source returns
`{"answers": ..., "notes": ...}` when any note exists and the bare answers
dict otherwise; both maps, plus the logged grid-alignment warnings, are
modelled explicitly. -/
structure AnswersResult where
  answers : AMap
  notes : NMap
  warnings : List GridEntry
deriving DecidableEq, Repr

/-- `parse_answers_from_pdf_text` (pdf_parser.py lines 286-477): the grid
reconstruction over all pages of the answer booklet, then the erratum
passes of the first `備註` block (`errata = none` models a document without
such a block). -/
def parse_answers_from_pdf_text (pages : List (List Word))
    (errata : Option ErrataMatches) : AnswersResult :=
  let grid := pages.foldl processAnswerPage ([], [])
  match errata with
  | none => { answers := grid.1, notes := [], warnings := grid.2 }
  | some e =>
    { answers := applyOps grid.1 (errataAnsOps e)
      notes := applyErrataNotes e []
      warnings := grid.2 }

/-! ### The spec's grid-reconstruction scenario (C6) -/

/-- The answer-booklet page of the spec's grid scenario: a labelled
question-number row `題號 1 2 3` at y = 100 and a labelled answer row
`答案 A B C` at y = 110 (Δy = 10, inside the 0 < Δy < 40 window), each
letter horizontally centred under its number (distance 0 < 25). -/
def samplePage : List Word :=
  [ { x0 := 0,  y0 := 100, x1 := 10, y1 := 106, text := "題號" }
  , { x0 := 30, y0 := 100, x1 := 34, y1 := 106, text := "1" }
  , { x0 := 60, y0 := 100, x1 := 64, y1 := 106, text := "2" }
  , { x0 := 90, y0 := 100, x1 := 94, y1 := 106, text := "3" }
  , { x0 := 0,  y0 := 110, x1 := 10, y1 := 116, text := "答案" }
  , { x0 := 30, y0 := 110, x1 := 34, y1 := 116, text := "A" }
  , { x0 := 60, y0 := 110, x1 := 64, y1 := 116, text := "B" }
  , { x0 := 90, y0 := 110, x1 := 94, y1 := 116, text := "C" } ]

/-- C6: on the spec's scenario page the reconstructor pairs the
question-number row with the answer row 10 units below it and aligns each
letter under its number, yielding exactly the map
`{1: ["A"], 2: ["B"], 3: ["C"]}` (and no alignment warnings). -/
theorem grid_reconstruction_sample :
    (parse_answers_from_pdf_text [samplePage] none).answers =
        [(1, ["A"]), (2, ["B"]), (3, ["C"])] ∧
      (parse_answers_from_pdf_text [samplePage] none).warnings = [] := by
  decide

/-! ### C7: the unresolved sentinel of the grid assignment -/

theorem bestAnsStep_out_of_threshold (qx : ℚ) (acc : Option ℚ × Option String)
    (a : GridEntry) (h : ¬(ratAbs (qx - a.x_mid) < 25)) :
    bestAnsStep qx acc a = acc := by
  simp [bestAnsStep, h]

/-- A question entry with every answer entry at horizontal distance ≥ 25
resolves to no answer (the `float('inf')` minimum is never beaten inside the
threshold). -/
theorem bestAnsForQ_none_of_far (ansEntries : List GridEntry) (qx : ℚ)
    (h : ∀ a ∈ ansEntries, ¬(ratAbs (qx - a.x_mid) < 25)) :
    bestAnsForQ ansEntries qx = none := by
  unfold bestAnsForQ
  have hs : ∀ (l : List GridEntry) (acc : Option ℚ × Option String),
      (∀ a ∈ l, ¬(ratAbs (qx - a.x_mid) < 25)) →
      l.foldl (bestAnsStep qx) acc = acc := by
    intro l
    induction l with
    | nil => intro acc _; rfl
    | cons a t ih =>
      intro acc hl
      rw [List.foldl_cons,
        bestAnsStep_out_of_threshold _ _ _ (hl a (List.mem_cons_self a t))]
      exact ih acc fun b hb => hl b (List.mem_cons_of_mem a hb)
  rw [hs ansEntries (none, none) h]

theorem assignBlock_cons (st : AMap × List GridEntry) (a : GridEntry)
    (t ansEntries : List GridEntry) :
    assignBlock st (a :: t) ansEntries = assignBlock (assignStep ansEntries st a) t ansEntries :=
  rfl

theorem assignStep_fst (ansEntries : List GridEntry) (acc : AMap × List GridEntry)
    (q : GridEntry) :
    (assignStep ansEntries acc q).1 =
      insertD acc.1 (gridKey q)
        (match bestAnsForQ ansEntries q.x_mid with
         | some a => [a]
         | none => ["#"]) := by
  cases hb : bestAnsForQ ansEntries q.x_mid <;> simp [assignStep, hb]

theorem assignStep_snd_mono (ansEntries : List GridEntry) (acc : AMap × List GridEntry)
    (q : GridEntry) (w : GridEntry) (h : w ∈ acc.2) :
    w ∈ (assignStep ansEntries acc q).2 := by
  cases hb : bestAnsForQ ansEntries q.x_mid <;> simp [assignStep, hb, h]

/-- Keys already present stay present through a block assignment. -/
theorem assignBlock_isSome_mono (qs : List GridEntry) (ansEntries : List GridEntry)
    (st : AMap × List GridEntry) (k : Nat) (h : (lookupD st.1 k).isSome) :
    (lookupD (assignBlock st qs ansEntries).1 k).isSome := by
  induction qs generalizing st with
  | nil => exact h
  | cons a t ih =>
    rw [assignBlock_cons]
    apply ih
    rw [assignStep_fst, lookupD_insertD]
    by_cases hk : k = gridKey a <;> simp [hk, h]

/-- Every entry of the processed row is present in the resulting map. -/
theorem assignBlock_mem_isSome (qs : List GridEntry) (ansEntries : List GridEntry)
    (st : AMap × List GridEntry) (q : GridEntry) (hq : q ∈ qs) :
    (lookupD (assignBlock st qs ansEntries).1 (gridKey q)).isSome := by
  induction qs generalizing st with
  | nil => cases hq
  | cons a t ih =>
    rw [assignBlock_cons]
    rcases List.mem_cons.mp hq with rfl | hmem
    · apply assignBlock_isSome_mono
      rw [assignStep_fst, lookupD_insertD]
      simp
    · exact ih _ hmem
  
theorem assignBlock_lookup_of_fresh_key (qs : List GridEntry)
    (ansEntries : List GridEntry) (st : AMap × List GridEntry) (k : Nat)
    (h : ∀ q ∈ qs, gridKey q ≠ k) :
    lookupD (assignBlock st qs ansEntries).1 k = lookupD st.1 k := by
  induction qs generalizing st with
  | nil => rfl
  | cons a t ih =>
    rw [assignBlock_cons, ih _ fun q hq => h q (List.mem_cons_of_mem a hq),
      assignStep_fst, lookupD_insertD]
    have := h a (List.mem_cons_self a t)
    simp [Ne.symm this]

/-- The write for the (unique) entry carrying an unresolvable number is the
sentinel, and later entries of the row do not disturb it. -/
theorem assignBlock_last_sentinel (qs ansEntries : List GridEntry)
    (st : AMap × List GridEntry) (q : GridEntry) (hq : q ∈ qs)
    (hfar : bestAnsForQ ansEntries q.x_mid = none)
    (huniq : ∀ q' ∈ qs, gridKey q' = gridKey q → q' = q) :
    lookupD (assignBlock st qs ansEntries).1 (gridKey q) = some ["#"] := by
  induction qs generalizing st with
  | nil => cases hq
  | cons a t ih =>
    rw [assignBlock_cons]
    by_cases hmem : q ∈ t
    · exact ih _ hmem fun q' hq' hk => huniq q' (List.mem_cons_of_mem a hq') hk
    · have ha : a = q := by
        rcases List.mem_cons.mp hq with h | h
        · exact h.symm
        · exact absurd h hmem
      subst ha
      have hfresh : ∀ q' ∈ t, gridKey q' ≠ gridKey a := by
        intro q' hq' hk
        exact hmem (huniq q' (List.mem_cons_of_mem a hq') hk ▸ hq')
      rw [assignBlock_lookup_of_fresh_key t ansEntries _ _ hfresh,
        assignStep_fst, hfar, lookupD_insertD]
      simp

theorem assignBlock_warning_mono (qs ansEntries : List GridEntry)
    (st : AMap × List GridEntry) (w : GridEntry) (h : w ∈ st.2) :
    w ∈ (assignBlock st qs ansEntries).2 := by
  induction qs generalizing st with
  | nil => exact h
  | cons a t ih =>
    rw [assignBlock_cons]
    exact ih _ (assignStep_snd_mono ansEntries st a w h)

/-- A warning is logged for a row entry that resolves to no answer. -/
theorem assignBlock_warning_of_far (qs ansEntries : List GridEntry)
    (st : AMap × List GridEntry) (q : GridEntry) (hq : q ∈ qs)
    (hfar : bestAnsForQ ansEntries q.x_mid = none) :
    q ∈ (assignBlock st qs ansEntries).2 := by
  induction qs generalizing st with
  | nil => cases hq
  | cons a t ih =>
    rw [assignBlock_cons]
    rcases List.mem_cons.mp hq with rfl | hmem
    · apply assignBlock_warning_mono
      simp [assignStep, hfar]
    · exact ih _ hmem

/-- C7: inside a paired question-row/answer-row block, an entry of the
question row whose number appears once and has no answer token within the
25-unit horizontal threshold is recorded in the answer map as exactly
`["#"]` and has a warning logged for it; moreover every entry of the row
ends up present in the answer map (never silently dropped). -/
theorem grid_unresolved_entry_sentinel
    (st : AMap × List GridEntry) (qEntries ansEntries : List GridEntry)
    (q : GridEntry) (hq : q ∈ qEntries)
    (hfar : ∀ a ∈ ansEntries, ¬(ratAbs (q.x_mid - a.x_mid) < 25))
    (huniq : ∀ q' ∈ qEntries, gridKey q' = gridKey q → q' = q) :
    lookupD (assignBlock st qEntries ansEntries).1 (gridKey q) = some ["#"] ∧
      q ∈ (assignBlock st qEntries ansEntries).2 ∧
      ∀ q' ∈ qEntries,
        (lookupD (assignBlock st qEntries ansEntries).1 (gridKey q')).isSome := by
  have hb : bestAnsForQ ansEntries q.x_mid = none :=
    bestAnsForQ_none_of_far ansEntries q.x_mid hfar
  exact ⟨assignBlock_last_sentinel qEntries ansEntries st q hq hb huniq,
    assignBlock_warning_of_far qEntries ansEntries st q hq hb,
    fun q' hq' => assignBlock_mem_isSome qEntries ansEntries st q' hq'⟩

/-- Witness for the C7 theorem: one question entry numbered 7 at x = 100,
one answer entry at x = 200 (distance 100, outside the threshold). -/
theorem grid_unresolved_entry_sentinel_witness :
    (∀ a ∈ [({ text := "A", x_mid := 200, y0 := 110 } : GridEntry)],
        ¬(ratAbs ((100 : ℚ) - a.x_mid) < 25)) ∧
      lookupD (assignBlock ([], []) [{ text := "7", x_mid := 100, y0 := 100 }]
          [{ text := "A", x_mid := 200, y0 := 110 }]).1
          (gridKey { text := "7", x_mid := 100, y0 := 100 }) = some ["#"] ∧
        ({ text := "7", x_mid := 100, y0 := 100 } : GridEntry) ∈
          (assignBlock ([], []) [{ text := "7", x_mid := 100, y0 := 100 }]
            [{ text := "A", x_mid := 200, y0 := 110 }]).2 ∧
        ∀ q' ∈ [({ text := "7", x_mid := 100, y0 := 100 } : GridEntry)],
          (lookupD (assignBlock ([], []) [{ text := "7", x_mid := 100, y0 := 100 }]
              [{ text := "A", x_mid := 200, y0 := 110 }]).1 (gridKey q')).isSome :=
  ⟨by decide,
    grid_unresolved_entry_sentinel ([], [])
      [{ text := "7", x_mid := 100, y0 := 100 }]
      [{ text := "A", x_mid := 200, y0 := 110 }]
      { text := "7", x_mid := 100, y0 := 100 }
      (by decide) (by decide) (by decide)⟩

/-! ### C9: every value stored by the answer stage is a one-element list -/

/-- Every value of an answers map is a one-element list. -/
def AllSingle (m : AMap) : Prop :=
  ∀ q v, lookupD m q = some v → v.length = 1

theorem AllSingle_insertD (m : AMap) (k : Nat) (v : List String)
    (hm : AllSingle m) (hv : v.length = 1) : AllSingle (insertD m k v) := by
  intro q w hw
  rw [lookupD_insertD] at hw
  by_cases h : q = k
  · rw [if_pos h] at hw
    cases hw
    exact hv
  · rw [if_neg h] at hw
    exact hm q w hw

theorem AllSingle_assignStep (ansEntries : List GridEntry)
    (acc : AMap × List GridEntry) (q : GridEntry) (hm : AllSingle acc.1) :
    AllSingle (assignStep ansEntries acc q).1 := by
  cases hb : bestAnsForQ ansEntries q.x_mid <;>
    simp only [assignStep, hb] <;>
    exact AllSingle_insertD _ _ _ hm rfl

theorem AllSingle_assignBlock (qs ansEntries : List GridEntry)
    (st : AMap × List GridEntry) (hm : AllSingle st.1) :
    AllSingle (assignBlock st qs ansEntries).1 := by
  induction qs generalizing st with
  | nil => exact hm
  | cons a t ih =>
    rw [assignBlock_cons]
    exact ih _ (AllSingle_assignStep ansEntries st a hm)

theorem AllSingle_pairStep (ansRows : List RowData)
    (acc : (AMap × List GridEntry) × List Nat) (qRow : RowData)
    (hm : AllSingle acc.1.1) : AllSingle (pairStep ansRows acc qRow).1.1 := by
  cases hb : findBestAnsRow ansRows acc.2 qRow with
  | none => simpa [pairStep, hb] using hm
  | some aRow =>
    simp only [pairStep, hb]
    exact AllSingle_assignBlock _ _ _ hm

theorem AllSingle_pairRows (qRows ansRows : List RowData)
    (st : AMap × List GridEntry) (hm : AllSingle st.1) :
    AllSingle (pairRows st qRows ansRows).1 := by
  have h : ∀ (qs : List RowData) (acc : (AMap × List GridEntry) × List Nat),
      AllSingle acc.1.1 → AllSingle ((qs.foldl (pairStep ansRows) acc).1).1 := by
    intro qs
    induction qs with
    | nil => intro acc h; exact h
    | cons a t ih =>
      intro acc hacc
      exact ih _ (AllSingle_pairStep ansRows acc a hacc)
  exact h qRows (st, []) hm

theorem AllSingle_processAnswerPage (st : AMap × List GridEntry)
    (page : List Word) (hm : AllSingle st.1) :
    AllSingle (processAnswerPage st page).1 := by
  unfold processAnswerPage
  by_cases hp : page.isEmpty
  · simpa [hp] using hm
  · simp only [hp, if_false]
    exact AllSingle_pairRows _ _ _ hm

theorem AllSingle_gridPages (pages : List (List Word))
    (st : AMap × List GridEntry) (hm : AllSingle st.1) :
    AllSingle (pages.foldl processAnswerPage st).1 := by
  induction pages generalizing st with
  | nil => exact hm
  | cons p t ih =>
    rw [List.foldl_cons]
    exact ih _ (AllSingle_processAnswerPage st p hm)

theorem AllSingle_applyOps (ops : List (Nat × List String)) (m : AMap)
    (hm : AllSingle m) (hops : ∀ op ∈ ops, op.2.length = 1) :
    AllSingle (applyOps m ops) := by
  induction ops generalizing m with
  | nil => exact hm
  | cons op t ih =>
    obtain ⟨k, v⟩ := op
    exact ih (insertD m k v)
      (AllSingle_insertD m k v hm (hops (k, v) (List.mem_cons_self _ _)))
      fun o ho => hops o (List.mem_cons_of_mem _ ho)

/-- Every erratum write carries a one-element list: a normalized single
letter, the sentinel `["送分"]`, or (structurally impossible here but present
in the source as a default) `["#"]`. -/
theorem errataAnsOps_singleton (e : ErrataMatches) :
    ∀ op ∈ errataAnsOps e, op.2.length = 1 := by
  intro op hop
  simp only [errataAnsOps, List.mem_append, List.mem_map, List.mem_flatMap] at hop
  rcases hop with (⟨c, _, rfl⟩ | ⟨c, _, rfl⟩) | ⟨m, _, qn, _, rfl⟩
  · rfl
  · rfl
  · cases m.action <;> rfl

/-- C9: every value of the answer map produced by
`parse_answers_from_pdf_text` — grid-derived, erratum correction, full
credit, or multi-question erratum — is a list of length exactly one. -/
theorem parse_answers_values_singleton (pages : List (List Word))
    (errata : Option ErrataMatches) (q : Nat) (v : List String)
    (h : lookupD (parse_answers_from_pdf_text pages errata).answers q = some v) :
    v.length = 1 := by
  have hg : AllSingle (pages.foldl processAnswerPage ([], [])).1 :=
    AllSingle_gridPages pages ([], []) (fun _ _ hq => by cases hq)
  cases errata with
  | none =>
    simp only [parse_answers_from_pdf_text] at h
    exact hg q v h
  | some e =>
    simp only [parse_answers_from_pdf_text] at h
    exact AllSingle_applyOps (errataAnsOps e) _ hg (errataAnsOps_singleton e) q v h

/-- Witness for the C9 theorem at the concrete grid page of the spec's
scenario: question 1 maps to `["A"]`, a one-element list. -/
theorem parse_answers_values_singleton_witness :
    lookupD (parse_answers_from_pdf_text [samplePage] none).answers 1 = some ["A"] ∧
      (["A"] : List String).length = 1 :=
  ⟨by decide, parse_answers_values_singleton [samplePage] none 1 ["A"] (by decide)⟩

/-! ## Merge/Combine stage (pdf_parser.py lines 481-526) -/

/-- A question dict as consumed by `combine_questions_and_answers`:
`question_number` may be absent or `None` (both `none` here), and the two
fields the merge normally adds may be absent on input (`none` = key not
present; `some none` = key present with value `None`). -/
structure PyQuestion where
  question_number : Option Nat
  content : String
  options : List (String × String)
  correct_answer_key : Option (List String) := none
  notes : Option (Option String) := none
deriving DecidableEq, Repr

/-- The per-question body of the merge loop (lines 494-523).  A record
without a question number is appended as-is (lines 496-499).  Otherwise a
copy gets `correct_answer_key = []` and `notes = None` (lines 502-504), the
answers-map value if present — with the pending-confirmation note when that
value is exactly `["#"]` (lines 506-517) — and finally the notes-map entry,
which replaces any note set so far (lines 521-522). -/
def combineStep (answers_map : AMap) (notes_map : NMap)
    (question : PyQuestion) : PyQuestion :=
  match question.question_number with
  | none => question
  | some qn =>
    let q1 := { question with correct_answer_key := some [], notes := some none }
    let q2 :=
      match lookupD answers_map qn with
      | some v =>
        let q' := { q1 with correct_answer_key := some v }
        if v = ["#"] then
          let noteVal :=
            match q'.notes with
            | some (some n) => if n = "" then "答案待確認" else n ++ "\n答案待確認"
            | _ => "答案待確認"
          { q' with notes := some (some noteVal) }
        else q'
      | none => q1
    match lookupD notes_map qn with
    | some n => { q2 with notes := some (some n) }
    | none => q2

/-- `combine_questions_and_answers` (pdf_parser.py lines 481-526): one
output record per input record, in order.  `notes_map = none` models the
`None` default, replaced by an empty dict (lines 491-492). -/
def combine_questions_and_answers (questions : List PyQuestion)
    (answers_map : AMap) (notes_map : Option NMap) : List PyQuestion :=
  questions.map (combineStep answers_map (notes_map.getD []))

/-- C1 counterexample: a question whose number is absent from the answers
map leaves the merge with `correct_answer_key = []` — the empty list — so
the claim that the final `correct_answer_key` is never empty fails. -/
theorem combine_missing_number_yields_empty_key :
    (combine_questions_and_answers
        [{ question_number := some 1, content := "題幹", options := [] }]
        [] none).map (·.correct_answer_key) = [some []] := by
  decide

/-- C1 (amended): for a record with a question number, the merged
`correct_answer_key` is exactly the answers-map value when the number is
present (in particular `["#"]` for unresolved grid entries) and the empty
list when it is absent. -/
theorem combine_answer_key_cases (questions : List PyQuestion) (am : AMap)
    (nm : Option NMap) (i : Nat) (q : PyQuestion) (n : Nat)
    (hi : questions[i]? = some q) (hq : q.question_number = some n) :
    ∃ r, (combine_questions_and_answers questions am nm)[i]? = some r ∧
      r.correct_answer_key = some ((lookupD am n).getD []) := by
  refine ⟨combineStep am (nm.getD []) q, ?_, ?_⟩
  · rw [combine_questions_and_answers, List.getElem?_map, hi, Option.map_some']
  · simp only [combineStep, hq]
    cases ha : lookupD am n with
    | none =>
      cases hn : lookupD (nm.getD []) n <;> simp [ha, hn]
    | some v =>
      by_cases hv : v = ["#"] <;>
        cases hn : lookupD (nm.getD []) n <;>
          simp [ha, hn, hv]

/-- Witness for the amended C1 theorem: the number is present with the
sentinel value, which is passed through unchanged. -/
theorem combine_answer_key_cases_witness :
    ([({ question_number := some 5, content := "x", options := [] } :
        PyQuestion)][0]? =
      some { question_number := some 5, content := "x", options := [] }) ∧
      ∃ r, (combine_questions_and_answers
          [{ question_number := some 5, content := "x", options := [] }]
          [(5, ["#"])] none)[0]? = some r ∧
        r.correct_answer_key = some ((lookupD [(5, ["#"])] 5).getD []) :=
  ⟨by decide,
    combine_answer_key_cases
      [{ question_number := some 5, content := "x", options := [] }]
      [(5, ["#"])] none 0
      { question_number := some 5, content := "x", options := [] } 5
      (by decide) (by decide)⟩

/-- C10: a record without a question number passes through the merge
unchanged, at its original position — in particular no `correct_answer_key`
and no `notes` field is added to it. -/
theorem combine_preserves_numberless (questions : List PyQuestion) (am : AMap)
    (nm : Option NMap) (i : Nat) (q : PyQuestion)
    (hi : questions[i]? = some q) (hq : q.question_number = none) :
    (combine_questions_and_answers questions am nm)[i]? = some q := by
  rw [combine_questions_and_answers, List.getElem?_map, hi, Option.map_some']
  simp only [combineStep, hq]

/-- Witness for the C10 theorem: a number-less record with both optional
fields absent is returned exactly as given. -/
theorem combine_preserves_numberless_witness :
    (({ question_number := none, content := "孤兒題", options := [("A", "甲")] } :
          PyQuestion).question_number = none) ∧
      (combine_questions_and_answers
          [{ question_number := none, content := "孤兒題", options := [("A", "甲")] }]
          [(1, ["A"])] (some [(1, "備註")]))[0]? =
        some { question_number := none, content := "孤兒題", options := [("A", "甲")] } :=
  ⟨by decide,
    combine_preserves_numberless
      [{ question_number := none, content := "孤兒題", options := [("A", "甲")] }]
      [(1, ["A"])] (some [(1, "備註")]) 0
      { question_number := none, content := "孤兒題", options := [("A", "甲")] }
      (by decide) (by decide)⟩

/-! ### C3: erratum writes always beat grid-derived answers -/

/-- The value of the last write for key `q` in a list of sequential dict
writes — the erratum-derived value for `q` when the erratum passes write
it. -/
def lastVal : List (Nat × List String) → Nat → Option (List String)
  | [], _ => none
  | (k, v) :: ops, q =>
    match lastVal ops q with
    | some w => some w
    | none => if k = q then some v else none

/-- Sequential dict writes are resolved by the last write when there is
one, and fall back to the starting map otherwise. -/
theorem lookupD_applyOps (ops : List (Nat × List String)) (m : AMap) (q : Nat) :
    lookupD (applyOps m ops) q =
      match lastVal ops q with
      | some w => some w
      | none => lookupD m q := by
  induction ops generalizing m with
  | nil => rfl
  | cons op ops ih =>
    obtain ⟨k, v⟩ := op
    show lookupD (applyOps (insertD m k v) ops) q = _
    rw [ih]
    cases h : lastVal ops q with
    | some w => simp [lastVal, h]
    | none =>
      simp only [lastVal, h, lookupD_insertD]
      by_cases hk : q = k
      · subst hk; simp
      · have hk' : ¬(k = q) := fun h' => hk h'.symm
        simp only [hk', if_false, if_neg hk]

/-- C3: when a question number has a grid-derived answer and the erratum
passes also write it (with last write `v`, a correction or full-credit
value), the merged record's `correct_answer_key` is exactly `v`: the
erratum stage always wins over the grid. -/
theorem erratum_wins_over_grid (pages : List (List Word)) (e : ErrataMatches)
    (q : PyQuestion) (n : Nat) (g v : List String)
    (hq : q.question_number = some n)
    (_hgrid : lookupD (pages.foldl processAnswerPage ([], [])).1 n = some g)
    (herr : lastVal (errataAnsOps e) n = some v) :
    (combine_questions_and_answers [q]
        (parse_answers_from_pdf_text pages (some e)).answers
        (some (parse_answers_from_pdf_text pages (some e)).notes)).map
      (·.correct_answer_key) = [some v] := by
  have hl : lookupD (parse_answers_from_pdf_text pages (some e)).answers n = some v := by
    show lookupD (applyOps (pages.foldl processAnswerPage ([], [])).1 (errataAnsOps e)) n
      = some v
    rw [lookupD_applyOps, herr]
  simp only [combine_questions_and_answers, List.map_map, List.map_cons, List.map_nil,
    Function.comp]
  simp only [combineStep, hq, hl]
  by_cases hv : v = ["#"] <;>
    cases hn : lookupD (parse_answers_from_pdf_text pages (some e)).notes n <;>
      simp [hv, hn]

/-- Witness for the C3 theorem: the grid page assigns `["A"]` to question 1
and a single-question erratum corrects it to `C`; the merged record carries
`["C"]`. -/
theorem erratum_wins_over_grid_witness :
    lookupD ([samplePage].foldl processAnswerPage ([], [])).1 1 = some ["A"] ∧
      lastVal (errataAnsOps ⟨[⟨1, 'C'⟩], [], [], []⟩) 1 = some ["C"] ∧
      (combine_questions_and_answers
          [{ question_number := some 1, content := "題幹", options := [] }]
          (parse_answers_from_pdf_text [samplePage]
            (some ⟨[⟨1, 'C'⟩], [], [], []⟩)).answers
          (some (parse_answers_from_pdf_text [samplePage]
            (some ⟨[⟨1, 'C'⟩], [], [], []⟩)).notes)).map
        (·.correct_answer_key) = [some ["C"]] :=
  ⟨by decide, by decide,
    erratum_wins_over_grid [samplePage] ⟨[⟨1, 'C'⟩], [], [], []⟩
      { question_number := some 1, content := "題幹", options := [] } 1 ["A"] ["C"]
      (by decide) (by decide) (by decide)⟩

/-! ## Image-to-Question Associator (pdf_parser.py lines 891-915)

The per-question image selection of `parse_questions_from_pdf`: among the
page's extracted images, pick the best one below the stem bounding box. -/

/-- A rectangle (`fitz.Rect`). -/
structure Rect where
  x0 : ℚ
  y0 : ℚ
  x1 : ℚ
  y1 : ℚ
deriving DecidableEq, Repr

/-- One extracted page image: its saved path and its bounding box on the
page (lines 805-808). -/
structure ImgItem where
  path : String
  bbox : Rect
deriving DecidableEq, Repr

/-- The candidate test of lines 897-908: the image starts strictly below
the stem's bottom edge, overlaps the stem horizontally, ends above the
first option's y-position when one was found, and its vertical gap below
the stem lies in [0, 150). -/
def imgQualifies (stem : Rect) (firstOptionY0 : Option ℚ) (img : ImgItem) : Bool :=
  decide (stem.y1 < img.bbox.y0) &&
  decide (max stem.x0 img.bbox.x0 < min stem.x1 img.bbox.x1) &&
  (match firstOptionY0 with
   | some oy => decide (img.bbox.y1 < oy)
   | none => true) &&
  decide (0 ≤ img.bbox.y0 - stem.y1) && decide (img.bbox.y0 - stem.y1 < 150)

/-- The vertical gap of an image below the stem (line 907). -/
def imgGap (stem : Rect) (img : ImgItem) : ℚ := img.bbox.y0 - stem.y1

/-- One iteration of the selection loop (lines 895-911): a qualifying image
strictly closer than the best so far (`none` models `float('inf')`)
replaces it. -/
def selectImgStep (stem : Rect) (firstOptionY0 : Option ℚ)
    (acc : Option ℚ × Option String) (img : ImgItem) : Option ℚ × Option String :=
  if imgQualifies stem firstOptionY0 img &&
      (match acc.1 with
       | none => true
       | some m => decide (imgGap stem img < m)) then
    (some (imgGap stem img), some img.path)
  else acc

/-- The image selected for one question whose stem bounding box was found
(lines 891-913): among the qualifying images, the first attaining the
minimal vertical gap below the stem; `none` when no image qualifies, which
leaves `image_path = None`. -/
def selectBestImage (images : List ImgItem) (stem : Rect)
    (firstOptionY0 : Option ℚ) : Option String :=
  (images.foldl (selectImgStep stem firstOptionY0) (none, none)).2

/-- Loop invariant of the selection fold: either nothing qualified so far,
or the accumulator holds a qualifying seen image of minimal gap. -/
def GoodImgAcc (stem : Rect) (oy : Option ℚ) (seen : List ImgItem)
    (acc : Option ℚ × Option String) : Prop :=
  (acc = (none, none) ∧ ∀ i ∈ seen, imgQualifies stem oy i = false) ∨
  (∃ m p img, acc = (some m, some p) ∧ img ∈ seen ∧
    imgQualifies stem oy img = true ∧ img.path = p ∧ imgGap stem img = m ∧
    ∀ i ∈ seen, imgQualifies stem oy i = true → m ≤ imgGap stem i)

theorem GoodImgAcc_step (stem : Rect) (oy : Option ℚ) (seen : List ImgItem)
    (acc : Option ℚ × Option String) (img : ImgItem)
    (h : GoodImgAcc stem oy seen acc) :
    GoodImgAcc stem oy (seen ++ [img]) (selectImgStep stem oy acc img) := by
  rcases h with ⟨hacc, hall⟩ | ⟨m, p, w, hacc, hmem, hq, hp, hg, hmin⟩
  · subst hacc
    by_cases hq : imgQualifies stem oy img = true
    · right
      refine ⟨imgGap stem img, img.path, img, ?_, ?_, hq, rfl, rfl, ?_⟩
      · simp [selectImgStep, hq]
      · simp
      · intro i hi hqi
        rcases List.mem_append.mp hi with hi | hi
        · exact absurd hqi (by simp [hall i hi])
        · rcases List.mem_singleton.mp hi with rfl
          exact le_refl _
    · left
      constructor
      · simp [selectImgStep, hq]
      · intro i hi
        rcases List.mem_append.mp hi with hi | hi
        · exact hall i hi
        · rcases List.mem_singleton.mp hi with rfl
          exact Bool.not_eq_true _ ▸ hq
  · subst hacc
    by_cases hcl : imgQualifies stem oy img = true ∧ imgGap stem img < m
    · right
      refine ⟨imgGap stem img, img.path, img, ?_, by simp, hcl.1, rfl, rfl, ?_⟩
      · simp [selectImgStep, hcl.1, hcl.2]
      · intro i hi hqi
        rcases List.mem_append.mp hi with hi | hi
        · exact le_of_lt (lt_of_lt_of_le hcl.2 (hmin i hi hqi))
        · rcases List.mem_singleton.mp hi with rfl
          exact le_refl _
    · right
      refine ⟨m, p, w, ?_, List.mem_append_left _ hmem, hq, hp, hg, ?_⟩
      · by_cases hq2 : imgQualifies stem oy img = true
        · have hnl : ¬(imgGap stem img < m) := fun hlt => hcl ⟨hq2, hlt⟩
          simp [selectImgStep, hq2, hnl]
        · simp [selectImgStep, hq2]
      · intro i hi hqi
        rcases List.mem_append.mp hi with hi | hi
        · exact hmin i hi hqi
        · rcases List.mem_singleton.mp hi with rfl
          by_cases hq2 : imgQualifies stem oy i = true
          · exact le_of_not_lt fun hlt => hcl ⟨hq2, hlt⟩
          · exact absurd hqi hq2

theorem GoodImgAcc_fold (stem : Rect) (oy : Option ℚ) (images : List ImgItem) :
    ∀ (seen : List ImgItem) (acc : Option ℚ × Option String),
      GoodImgAcc stem oy seen acc →
      GoodImgAcc stem oy (seen ++ images)
        (images.foldl (selectImgStep stem oy) acc) := by
  induction images with
  | nil => intro seen acc h; simpa using h
  | cons img t ih =>
    intro seen acc h
    have h1 := GoodImgAcc_step stem oy seen acc img h
    have h2 := ih (seen ++ [img]) (selectImgStep stem oy acc img) h1
    simpa [List.append_assoc] using h2

/-- C8: the selected image is a qualifying one (below the stem, overlapping
it horizontally, above the first option when present, gap within the
150-unit threshold) of minimal vertical gap, and when no image qualifies
the selection — hence `image_path` — is `None`. -/
theorem image_association_selects_nearest (images : List ImgItem) (stem : Rect)
    (firstOptionY0 : Option ℚ) :
    ((∀ i ∈ images, imgQualifies stem firstOptionY0 i = false) →
        selectBestImage images stem firstOptionY0 = none) ∧
      (∀ p, selectBestImage images stem firstOptionY0 = some p →
        ∃ img, img ∈ images ∧ img.path = p ∧
          imgQualifies stem firstOptionY0 img = true ∧
          ∀ i ∈ images, imgQualifies stem firstOptionY0 i = true →
            imgGap stem img ≤ imgGap stem i) ∧
      ((∃ img, img ∈ images ∧ imgQualifies stem firstOptionY0 img = true) →
        (selectBestImage images stem firstOptionY0).isSome = true) := by
  have hinv := GoodImgAcc_fold stem firstOptionY0 images [] (none, none)
    (Or.inl ⟨rfl, by simp⟩)
  simp only [List.nil_append] at hinv
  unfold selectBestImage
  refine ⟨?_, ?_, ?_⟩
  · intro hall
    rcases hinv with ⟨hacc, _⟩ | ⟨m, p, w, hacc, hmem, hq, _, _, _⟩
    · rw [hacc]
    · exact absurd hq (by simp [hall w hmem])
  · intro p hp
    rcases hinv with ⟨hacc, _⟩ | ⟨m, p', w, hacc, hmem, hq, hpath, hg, hmin⟩
    · rw [hacc] at hp
      cases hp
    · rw [hacc] at hp
      cases hp
      exact ⟨w, hmem, hpath, hq, fun i hi hqi => hg ▸ hmin i hi hqi⟩
  · rintro ⟨img, hmem, hq⟩
    rcases hinv with ⟨_, hall⟩ | ⟨m, p', w, hacc, _, _, _, _, _⟩
    · exact absurd hq (by simp [hall img hmem])
    · rw [hacc]
      rfl

/-- Witness for the C8 theorem: an image above the stem is rejected, the
one 20 units below the stem qualifies and is selected. -/
theorem image_association_selects_nearest_witness :
    selectBestImage
        [ { path := "above.png", bbox := { x0 := 0, y0 := 0, x1 := 50, y1 := 40 } }
        , { path := "figure.png", bbox := { x0 := 10, y0 := 120, x1 := 60, y1 := 150 } } ]
        { x0 := 0, y0 := 50, x1 := 100, y1 := 100 } none = some "figure.png" ∧
      ∃ img, img ∈
          [ ({ path := "above.png", bbox := { x0 := 0, y0 := 0, x1 := 50, y1 := 40 } } : ImgItem)
          , { path := "figure.png", bbox := { x0 := 10, y0 := 120, x1 := 60, y1 := 150 } } ] ∧
        img.path = "figure.png" ∧
        imgQualifies { x0 := 0, y0 := 50, x1 := 100, y1 := 100 } none img = true ∧
        ∀ i ∈
            [ ({ path := "above.png", bbox := { x0 := 0, y0 := 0, x1 := 50, y1 := 40 } } : ImgItem)
            , { path := "figure.png", bbox := { x0 := 10, y0 := 120, x1 := 60, y1 := 150 } } ],
          imgQualifies { x0 := 0, y0 := 50, x1 := 100, y1 := 100 } none i = true →
            imgGap { x0 := 0, y0 := 50, x1 := 100, y1 := 100 } img ≤
              imgGap { x0 := 0, y0 := 50, x1 := 100, y1 := 100 } i :=
  ⟨by decide,
    (image_association_selects_nearest
        [ { path := "above.png", bbox := { x0 := 0, y0 := 0, x1 := 50, y1 := 40 } }
        , { path := "figure.png", bbox := { x0 := 10, y0 := 120, x1 := 60, y1 := 150 } } ]
        { x0 := 0, y0 := 50, x1 := 100, y1 := 100 } none).2.1
      "figure.png" (by decide)⟩
